import Mathlib

/-!
Verification of the `jsonextractor.py` script (`src/data_output/temp/jsonextractor.py`).

The script extracts JSON-like fragments and bracketed concept lists from free
text and writes them to JSON and tabular outputs.  This file gives a shallow
embedding of the script's functions:

* `regexFindall oc cc` embeds `re.findall` of the non-greedy DOTALL pattern
  bounded by the characters `oc` and `cc` (the script uses the two patterns
  bounded by the brace pair and by the bracket pair);
* `json_loads` embeds Python's `json.loads` (object/array/string/number/
  constant grammar, whitespace, strict rejection of raw control characters,
  duplicate keys last-wins at first position);
* `md5Hex` embeds `hashlib.md5(s.encode()).hexdigest()`: UTF-8 encoding,
  the full MD5 compression function over `Nat` arithmetic modulo 2^32, and
  a lowercase hex digest;
* `extract_json_from_text`, `extract_conceptual_space` embed the two
  extraction functions;
* `pyMain` and `pyProgram` embed `main` and the `__main__` block as the list
  of file-system and console events they perform, in order.

Machine integers are modelled as `Nat` with explicit reduction modulo 2^32;
all definitions are executable and structurally recursive (parsers use a
character-count fuel), so concrete runs evaluate by `rfl`.
-/

set_option maxRecDepth 16384
set_option maxHeartbeats 3200000

/-! ### MD5 (`hashlib.md5(...).hexdigest()`), over UTF-8 bytes as `Nat` -/

/-- UTF-8 encoding of a single code point, as a list of byte values. -/
def utf8EncodeChar (n : Nat) : List Nat :=
  if n < 128 then [n]
  else if n < 2048 then [192 + n / 64, 128 + n % 64]
  else if n < 65536 then [224 + n / 4096, 128 + n / 64 % 64, 128 + n % 64]
  else [240 + n / 262144, 128 + n / 4096 % 64, 128 + n / 64 % 64, 128 + n % 64]

/-- UTF-8 bytes of a string (Python's `str.encode()`). -/
def utf8Bytes (s : String) : List Nat :=
  s.data.foldr (fun c acc => utf8EncodeChar c.toNat ++ acc) []

/-- The 64 MD5 round constants `K[i] = floor(abs(sin(i+1)) * 2^32)`. -/
def md5K : List Nat :=
  [3614090360, 3905402710, 606105819, 3250441966, 4118548399, 1200080426,
   2821735955, 4249261313, 1770035416, 2336552879, 4294925233, 2304563134,
   1804603682, 4254626195, 2792965006, 1236535329, 4129170786, 3225465664,
   643717713, 3921069994, 3593408605, 38016083, 3634488961, 3889429448,
   568446438, 3275163606, 4107603335, 1163531501, 2850285829, 4243563512,
   1735328473, 2368359562, 4294588738, 2272392833, 1839030562, 4259657740,
   2763975236, 1272893353, 4139469664, 3200236656, 681279174, 3936430074,
   3572445317, 76029189, 3654602809, 3873151461, 530742520, 3299628645,
   4096336452, 1126891415, 2878612391, 4237533241, 1700485571, 2399980690,
   4293915773, 2240044497, 1873313359, 4264355552, 2734768916, 1309151649,
   4149444226, 3174756917, 718787259, 3951481745]

/-- The 64 MD5 per-round left-rotation amounts. -/
def md5S : List Nat :=
  [7, 12, 17, 22, 7, 12, 17, 22, 7, 12, 17, 22, 7, 12, 17, 22,
   5, 9, 14, 20, 5, 9, 14, 20, 5, 9, 14, 20, 5, 9, 14, 20,
   4, 11, 16, 23, 4, 11, 16, 23, 4, 11, 16, 23, 4, 11, 16, 23,
   6, 10, 15, 21, 6, 10, 15, 21, 6, 10, 15, 21, 6, 10, 15, 21]

/-- 32-bit left rotation of `x` (for `x < 2^32`). -/
def rotL32 (x s : Nat) : Nat := (x * 2 ^ s + x / 2 ^ (32 - s)) % 4294967296

/-- 32-bit bitwise complement of `x` (for `x < 2^32`). -/
def not32 (x : Nat) : Nat := 4294967295 - x

/-- MD5 round function and message-word index for round `i`. -/
def md5FG (i b c d : Nat) : Nat × Nat :=
  if i < 16 then (Nat.lor (Nat.land b c) (Nat.land (not32 b) d), i)
  else if i < 32 then (Nat.lor (Nat.land d b) (Nat.land (not32 d) c), (5 * i + 1) % 16)
  else if i < 48 then (Nat.xor b (Nat.xor c d), (3 * i + 5) % 16)
  else (Nat.xor c (Nat.lor b (not32 d)), (7 * i) % 16)

/-- One MD5 round applied to the state `(a, b, c, d)`. -/
def md5Step (m : List Nat) (st : Nat × Nat × Nat × Nat) (i : Nat) : Nat × Nat × Nat × Nat :=
  let a := st.1; let b := st.2.1; let c := st.2.2.1; let d := st.2.2.2
  let fg := md5FG i b c d
  let tmp := (fg.1 + a + md5K.getD i 0 + m.getD fg.2 0) % 4294967296
  (d, (b + rotL32 tmp (md5S.getD i 0)) % 4294967296, b, c)

/-- Group a list of bytes into 32-bit little-endian words. -/
def bytesToWordsLE : List Nat → List Nat
  | b0 :: b1 :: b2 :: b3 :: rest =>
      (b0 + 256 * b1 + 65536 * b2 + 16777216 * b3) :: bytesToWordsLE rest
  | _ => []

/-- The MD5 compression function for one 64-byte block. -/
def md5Block (st : Nat × Nat × Nat × Nat) (blockBytes : List Nat) : Nat × Nat × Nat × Nat :=
  let m := bytesToWordsLE blockBytes
  let r := (List.range 64).foldl (md5Step m) st
  ((st.1 + r.1) % 4294967296, (st.2.1 + r.2.1) % 4294967296,
   (st.2.2.1 + r.2.2.1) % 4294967296, (st.2.2.2 + r.2.2.2) % 4294967296)

/-- Process a padded message 64 bytes at a time (`fuel` bounds the recursion). -/
def md5Chunks : Nat → Nat × Nat × Nat × Nat → List Nat → Nat × Nat × Nat × Nat
  | 0, st, _ => st
  | _ + 1, st, [] => st
  | n + 1, st, bytes => md5Chunks n (md5Block st (bytes.take 64)) (bytes.drop 64)

/-- MD5 padding: a `0x80` byte, zeros to 56 mod 64, then the 64-bit
little-endian bit length. -/
def md5Pad (msg : List Nat) : List Nat :=
  let bitLen := (8 * msg.length) % (2 ^ 64)
  let zeros := (119 - msg.length % 64) % 64
  msg ++ [128] ++ List.replicate zeros 0 ++ (List.range 8).map (fun i => bitLen / 256 ^ i % 256)

/-- The four little-endian bytes of a 32-bit word. -/
def wordLEBytes (w : Nat) : List Nat := [w % 256, w / 256 % 256, w / 65536 % 256, w / 16777216 % 256]

/-- Lowercase hexadecimal digit. -/
def hexDigitChar (n : Nat) : Char := Char.ofNat (if n < 10 then 48 + n else 87 + n)

/-- Two lowercase hex digits of a byte. -/
def byteHexStr (b : Nat) : String := String.mk [hexDigitChar (b / 16), hexDigitChar (b % 16)]

/-- `hashlib.md5(s.encode()).hexdigest()`: the lowercase MD5 hex digest of the
UTF-8 bytes of `s`. -/
def md5Hex (s : String) : String :=
  let padded := md5Pad (utf8Bytes s)
  let st := md5Chunks padded.length (1732584193, 4023233417, 2562383102, 271733878) padded
  String.join ((wordLEBytes st.1 ++ wordLEBytes st.2.1 ++
    wordLEBytes st.2.2.1 ++ wordLEBytes st.2.2.2).map byteHexStr)

/-! ### The non-greedy delimiter regex (`re.findall(r'\{.*?\}', text, re.DOTALL)`) -/

/-- One left-to-right scan of `re.findall` for the non-greedy DOTALL pattern
bounded by the open delimiter `oc` and close delimiter `cc`.  In state `none`
the scanner looks for the next occurrence of `oc`; in state `some acc` it
extends the pending match `acc` until the first `cc`, emits it, and resumes
after the emitted match.  A pending match with no closing delimiter is
discarded, exactly as the regex engine finds no further match. -/
def scanDelims (oc cc : Char) : Option (List Char) → List Char → List (List Char)
  | _, [] => []
  | none, c :: rest =>
      if c = oc then scanDelims oc cc (some [c]) rest else scanDelims oc cc none rest
  | some acc, c :: rest =>
      if c = cc then (acc ++ [c]) :: scanDelims oc cc none rest
      else scanDelims oc cc (some (acc ++ [c])) rest

/-- `re.findall` of the non-greedy DOTALL pattern bounded by `oc` and `cc`. -/
def regexFindall (oc cc : Char) (s : String) : List String :=
  (scanDelims oc cc none s.data).map String.mk

/-! ### JSON values and `json.loads` -/

/-- Python values produced by `json.loads`: `None`, `bool`, `int`, `float`,
`str`, `list`, and `dict` (a `dict` modelled as its insertion-ordered
association list).  A float literal is kept as its source lexeme: no claim
about this program depends on float arithmetic. -/
inductive JsonVal where
  | null
  | bool (b : Bool)
  | int (n : Int)
  | float (raw : String)
  | str (s : String)
  | arr (elems : List JsonVal)
  | obj (entries : List (String × JsonVal))

/-- CPython `dict` assignment `d[k] = v`: if the key is present its value is
replaced in place (the key keeps its original position), otherwise the pair
is appended. -/
def dictSet : List (String × JsonVal) → String → JsonVal → List (String × JsonVal)
  | [], k, v => [(k, v)]
  | (k', v') :: t, k, v =>
      if k' = k then (k', v) :: t else (k', v') :: dictSet t k v

/-- CPython `dict` lookup `d[k]`. -/
def dictLookup (k : String) : List (String × JsonVal) → Option JsonVal
  | [] => none
  | (k', v) :: t => if k' = k then some v else dictLookup k t

/-- Lookup of a key on a JSON value that is an object. -/
def jsonGet (k : String) : JsonVal → Option JsonVal
  | .obj kvs => dictLookup k kvs
  | _ => none

/-- JSON whitespace accepted by Python's `json` module. -/
def isJsonWs (c : Char) : Bool := c = ' ' || c = '\t' || c = '\n' || c = '\r'

/-- Skip JSON whitespace. -/
def skipWs (cs : List Char) : List Char := cs.dropWhile isJsonWs

/-- Value of a hexadecimal digit. -/
def hexDigitVal (c : Char) : Option Nat :=
  if '0' ≤ c ∧ c ≤ '9' then some (c.toNat - 48)
  else if 'a' ≤ c ∧ c ≤ 'f' then some (c.toNat - 87)
  else if 'A' ≤ c ∧ c ≤ 'F' then some (c.toNat - 55)
  else none

/-- Value of a four-digit hexadecimal escape. -/
def hex4Val (h1 h2 h3 h4 : Char) : Option Nat :=
  match hexDigitVal h1, hexDigitVal h2, hexDigitVal h3, hexDigitVal h4 with
  | some a, some b, some c, some d => some (4096 * a + 256 * b + 16 * c + d)
  | _, _, _, _ => none

/-- Body of a JSON string after the opening quote: decoded characters and the
input following the closing quote.  Mirrors Python's strict decoder: raw
control characters below `0x20` are rejected, `\uXXXX` escapes are decoded
with surrogate-pair combination (a lone surrogate, which Lean's `Char`
cannot represent, degrades to the null character; a second escape that is
not a low surrogate is left unconsumed, as CPython does).  The fuel bounds
the recursion; every call site passes more fuel than there are characters,
and each step consumes at least one character. -/
def parseStringBody : Nat → List Char → Option (List Char × List Char)
  | 0, _ => none
  | _ + 1, [] => none
  | _ + 1, '"' :: rest => some ([], rest)
  | n + 1, '\\' :: rest =>
      match rest with
      | 'u' :: h1 :: h2 :: h3 :: h4 :: rest2 =>
          match hex4Val h1 h2 h3 h4 with
          | none => none
          | some v =>
              if 55296 ≤ v ∧ v < 56320 then
                match rest2 with
                | '\\' :: 'u' :: g1 :: g2 :: g3 :: g4 :: rest3 =>
                    match hex4Val g1 g2 g3 g4 with
                    | none => none
                    | some w =>
                        if 56320 ≤ w ∧ w < 57344 then
                          (parseStringBody n rest3).map (fun p =>
                            (Char.ofNat (65536 + (v - 55296) * 1024 + (w - 56320)) :: p.1, p.2))
                        else
                          (parseStringBody n rest2).map (fun p => (Char.ofNat v :: p.1, p.2))
                | _ => (parseStringBody n rest2).map (fun p => (Char.ofNat v :: p.1, p.2))
              else (parseStringBody n rest2).map (fun p => (Char.ofNat v :: p.1, p.2))
      | c :: rest2 =>
          let esc : Option Char :=
            if c = '"' then some '"'
            else if c = '\\' then some '\\'
            else if c = '/' then some '/'
            else if c = 'b' then some (Char.ofNat 8)
            else if c = 'f' then some (Char.ofNat 12)
            else if c = 'n' then some '\n'
            else if c = 'r' then some '\r'
            else if c = 't' then some '\t'
            else none
          match esc with
          | some e => (parseStringBody n rest2).map (fun p => (e :: p.1, p.2))
          | none => none
      | [] => none
  | n + 1, c :: rest =>
      if c.toNat < 32 then none
      else (parseStringBody n rest).map (fun p => (c :: p.1, p.2))

/-- Numeric value of a list of decimal digits. -/
def digitsVal (ds : List Char) : Nat := ds.foldl (fun n c => 10 * n + (c.toNat - 48)) 0

/-- A JSON number starting at the head of the input, following the Python
`json` number regex `(-?(?:0|[1-9]\d*))(\.\d+)?([eE][-+]?\d+)?`: the longest
valid prefix is consumed, an integer literal becomes a Python `int`, any
fractional part or exponent makes it a `float` (kept as its lexeme). -/
def parseNumber (cs : List Char) : Option (JsonVal × List Char) :=
  let sign : List Char × List Char :=
    match cs with
    | '-' :: t => (['-'], t)
    | _ => ([], cs)
  let intPart : Option (List Char × List Char) :=
    match sign.2 with
    | '0' :: t => some (['0'], t)
    | c :: t => if c.isDigit then some (c :: t.takeWhile Char.isDigit, t.dropWhile Char.isDigit) else none
    | [] => none
  match intPart with
  | none => none
  | some (ip, rest1) =>
      let frac : List Char × List Char :=
        match rest1 with
        | '.' :: t =>
            let ds := t.takeWhile Char.isDigit
            if ds.isEmpty then ([], rest1) else ('.' :: ds, t.dropWhile Char.isDigit)
        | _ => ([], rest1)
      let expPart : List Char × List Char :=
        match frac.2 with
        | c :: t =>
            if c = 'e' ∨ c = 'E' then
              let se : List Char × List Char :=
                match t with
                | '+' :: u => (['+'], u)
                | '-' :: u => (['-'], u)
                | _ => ([], t)
              let ds := se.2.takeWhile Char.isDigit
              if ds.isEmpty then ([], frac.2)
              else (c :: se.1 ++ ds, se.2.dropWhile Char.isDigit)
            else ([], frac.2)
        | [] => ([], frac.2)
      if frac.1.isEmpty ∧ expPart.1.isEmpty then
        let v : Int := Int.ofNat (digitsVal ip)
        some (.int (if sign.1.isEmpty then v else -v), rest1)
      else
        some (.float (String.mk (sign.1 ++ ip ++ frac.1 ++ expPart.1)), expPart.2)

/-- The literal names `true`, `false`, `null` and the non-standard constants
`NaN`, `Infinity`, `-Infinity` accepted by Python's `json` scanner, checked
as prefixes of the remaining input. -/
def parseConst (cs : List Char) : Option (JsonVal × List Char) :=
  if List.isPrefixOf "true".data cs then some (.bool true, cs.drop 4)
  else if List.isPrefixOf "false".data cs then some (.bool false, cs.drop 5)
  else if List.isPrefixOf "null".data cs then some (.null, cs.drop 4)
  else if List.isPrefixOf "NaN".data cs then some (.float "NaN", cs.drop 3)
  else if List.isPrefixOf "Infinity".data cs then some (.float "Infinity", cs.drop 8)
  else if List.isPrefixOf "-Infinity".data cs then some (.float "-Infinity", cs.drop 9)
  else none

mutual

/-- One JSON value starting at the head of the input (no leading whitespace),
as in Python's `json` scanner: objects, arrays, strings, the literal names
and constants, and numbers, dispatched on the first character.  `fuel`
bounds the recursion; `json_loads` supplies 2·length + 2, which is more
than any parse can consume. -/
def parseValue : Nat → List Char → Option (JsonVal × List Char)
  | 0, _ => none
  | n + 1, cs =>
      match cs with
      | [] => none
      | c :: rest =>
          if c = '{' then
            match skipWs rest with
            | '}' :: rest2 => some (.obj [], rest2)
            | r => match parseMembers n r [] with
                   | some (kvs, rest2) => some (.obj kvs, rest2)
                   | none => none
          else if c = '[' then
            match skipWs rest with
            | ']' :: rest2 => some (.arr [], rest2)
            | r => (parseElems n r []).map (fun p => (.arr p.1, p.2))
          else if c = '"' then
            (parseStringBody (rest.length + 1) rest).map (fun p => (.str (String.mk p.1), p.2))
          else
            match parseConst (c :: rest) with
            | some p => some p
            | none => parseNumber (c :: rest)

/-- The members of a JSON object after the opening brace (first key at the
head of the input): `string : value` pairs separated by commas, closed by a
closing brace.  Pairs are entered with `dictSet`, so a duplicate key keeps
its first position and its last value, as `dict(pairs)` does. -/
def parseMembers : Nat → List Char → List (String × JsonVal) → Option (List (String × JsonVal) × List Char)
  | 0, _, _ => none
  | n + 1, cs, acc =>
      match cs with
      | '"' :: rest =>
          match parseStringBody (rest.length + 1) rest with
          | none => none
          | some (key, r1) =>
              match skipWs r1 with
              | ':' :: r2 =>
                  match parseValue n (skipWs r2) with
                  | none => none
                  | some (v, r3) =>
                      match skipWs r3 with
                      | ',' :: r4 => parseMembers n (skipWs r4) (dictSet acc (String.mk key) v)
                      | '}' :: r4 => some (dictSet acc (String.mk key) v, r4)
                      | _ => none
              | _ => none
      | _ => none

/-- The elements of a JSON array after the opening bracket (first element at
the head of the input): values separated by commas, closed by a closing
bracket. -/
def parseElems : Nat → List Char → List JsonVal → Option (List JsonVal × List Char)
  | 0, _, _ => none
  | n + 1, cs, acc =>
      match parseValue n cs with
      | none => none
      | some (v, r1) =>
          match skipWs r1 with
          | ',' :: r2 => parseElems n (skipWs r2) (acc ++ [v])
          | ']' :: r2 => some (acc ++ [v], r2)
          | _ => none

end

/-- Python's `json.loads`: skip leading whitespace, parse one value, and
require only whitespace to follow; any failure raises `JSONDecodeError`,
modelled as `none`. -/
def json_loads (s : String) : Option JsonVal :=
  match parseValue (2 * s.data.length + 2) (skipWs s.data) with
  | some (v, rest) => if (skipWs rest).isEmpty then some v else none
  | none => none


/-! ### `extract_json_from_text` -/

/-- The mutation `json_obj["chunk_id"] = hashlib.md5(match.encode()).hexdigest()`
performed on each successfully parsed match.  Every regex match begins with
an opening brace, so a successful `json.loads` always yields a `dict`; on
that (only reachable) case the digest of the raw matched text is assigned
under the key `"chunk_id"`. -/
def setChunk (v : JsonVal) (raw : String) : JsonVal :=
  match v with
  | .obj kvs => .obj (dictSet kvs "chunk_id" (.str (md5Hex raw)))
  | other => other

/-- The `for match in matches` loop of `extract_json_from_text`: parse each
match, skip it on `JSONDecodeError`, otherwise tag it with its content hash
and append it. -/
def extractLoop : List String → List JsonVal
  | [] => []
  | m :: ms =>
      match json_loads m with
      | some v => setChunk v m :: extractLoop ms
      | none => extractLoop ms

/-- `extract_json_from_text(text)`: find all non-greedy brace-delimited
matches and keep the ones that parse as JSON, tagged with their MD5
content hash. -/
def extract_json_from_text (text : String) : List JsonVal :=
  extractLoop (regexFindall '{' '}' text)

/-! ### `extract_conceptual_space` -/

/-- Python's `str.strip(set)`: remove all leading and trailing characters
belonging to `set`. -/
def pyStrip (set : List Char) (s : String) : String :=
  String.mk ((((s.data.dropWhile (fun c => set.contains c)).reverse).dropWhile
    (fun c => set.contains c)).reverse)

/-- Helper for Python's `str.split(', ')`: cut at each leftmost,
non-overlapping occurrence of the two-character separator comma-space.  The
first argument accumulates the current chunk in reverse. -/
def splitCSAux : List Char → List Char → List (List Char)
  | acc, ',' :: ' ' :: rest => acc.reverse :: splitCSAux [] rest
  | acc, c :: rest => splitCSAux (c :: acc) rest
  | acc, [] => [acc.reverse]

/-- Python's `str.split(', ')`.  On an empty string it returns a singleton
list holding the empty string, as Python does. -/
def splitCommaSpace (s : String) : List String := (splitCSAux [] s.data).map String.mk

/-- The per-match cleaning step of `extract_conceptual_space`:
`match.strip('[]').split(', ')`. -/
def cleanConcepts (m : String) : List String := splitCommaSpace (pyStrip ['[', ']'] m)

/-- `extract_conceptual_space(text)`: find all non-greedy bracket-delimited
matches, clean each, and append them in order under the single key
`"all concepts"`.  The returned Python dict is modelled as its
insertion-ordered association list. -/
def extract_conceptual_space (text : String) : List (String × List (List String)) :=
  let found := regexFindall '[' ']' text
  let groups := found.foldl (fun acc m => acc ++ [cleanConcepts m]) []
  [("all concepts", groups)]

/-! ### `json.dumps(..., indent=4)` -/

/-- One escaped character of a JSON string under `ensure_ascii=True`:
the two-character escapes, `\u00xx` for other control characters, plain
ASCII unchanged, and `\uxxxx` (with surrogate pairs above `0xffff`) for
everything non-ASCII. -/
def escapeJsonChar (c : Char) : String :=
  if c = '"' then "\\\""
  else if c = '\\' then "\\\\"
  else if c = '\n' then "\\n"
  else if c = '\r' then "\\r"
  else if c = '\t' then "\\t"
  else if c.toNat = 8 then "\\b"
  else if c.toNat = 12 then "\\f"
  else if c.toNat < 32 ∨ c.toNat > 126 then
    let hex4 : Nat → String := fun n =>
      String.mk [hexDigitChar (n / 4096 % 16), hexDigitChar (n / 256 % 16),
                 hexDigitChar (n / 16 % 16), hexDigitChar (n % 16)]
    if c.toNat < 65536 then "\\u" ++ hex4 c.toNat
    else
      let v := c.toNat - 65536
      "\\u" ++ hex4 (55296 + v / 1024) ++ "\\u" ++ hex4 (56320 + v % 1024)
  else String.singleton c

/-- A JSON string literal as serialized by `json.dumps`. -/
def dumpsStr (s : String) : String :=
  "\"" ++ String.join (s.data.map escapeJsonChar) ++ "\""

/-- The indentation prefix at nesting `level` for `indent=4`. -/
def indentStr (level : Nat) : String := String.mk (List.replicate (4 * level) ' ')

/-- `json.dumps(v, indent=4)` of a value nested at `level`: empty containers
in line, non-empty containers broken over lines with four extra spaces per
level and the separators `(',', ': ')`.  An `int` prints as its decimal
representation; a `float` prints as its recorded lexeme (no claim depends
on float formatting).  `fuel` bounds the recursion and every use supplies
more fuel than the value's constructor depth. -/
def dumpsVal : Nat → Nat → JsonVal → String
  | 0, _, _ => ""
  | n + 1, level, v =>
      match v with
      | .null => "null"
      | .bool true => "true"
      | .bool false => "false"
      | .int i => toString i
      | .float raw => raw
      | .str s => dumpsStr s
      | .arr [] => "[]"
      | .arr xs =>
          "[\n" ++
          String.intercalate ",\n" (xs.map (fun x => indentStr (level + 1) ++ dumpsVal n (level + 1) x)) ++
          "\n" ++ indentStr level ++ "]"
      | .obj [] => "\x7b\x7d"
      | .obj kvs =>
          "\x7b\n" ++
          String.intercalate ",\n" (kvs.map (fun kv =>
            indentStr (level + 1) ++ dumpsStr kv.1 ++ ": " ++ dumpsVal n (level + 1) kv.2)) ++
          "\n" ++ indentStr level ++ "\x7d"

/-- The text written to `cleaned_data.json` for a given input text:
`json.dumps(json_objects, indent=4)` of the extracted records.  The fuel
`text.length + 2` exceeds the constructor depth of anything parsed out of
`text`, since every nesting level of a parsed value consumes at least one
character of its match. -/
def cleanedDataText (text : String) : String :=
  dumpsVal (text.length + 2) 0 (JsonVal.arr (extract_json_from_text text))

/-- The conceptual-space dict as a JSON value. -/
def conceptualToJson (cs : List (String × List (List String))) : JsonVal :=
  .obj (cs.map (fun kv => (kv.1, JsonVal.arr (kv.2.map (fun g => JsonVal.arr (g.map JsonVal.str))))))

/-- `json.dump(conceptual_space, f, indent=4)`: the text written to
`conceptual_space.json`.  The dict always nests exactly three container
levels, so the constant fuel 8 is ample. -/
def dumpsConceptualSpace (cs : List (String × List (List String))) : String :=
  dumpsVal 8 0 (conceptualToJson cs)

/-! ### `pd.DataFrame(json_objects).to_csv(..., sep='|', index=False)` -/

/-- The keys of a record (a parsed JSON object), in insertion order. -/
def recordKeys : JsonVal → List String
  | .obj kvs => kvs.map (fun kv => kv.1)
  | _ => []

/-- The columns of `pd.DataFrame(json_objects)`: the union of the records'
keys, ordered by first appearance. -/
def dfColumns (records : List JsonVal) : List String :=
  records.foldl (fun cols r => cols ++ (recordKeys r).filter (fun k => decide (k ∉ cols))) []

/-- Python's `repr` for the value shapes a parsed record can hold, used by
pandas when a cell holds a container.  String repr is modelled with single
quotes and backslash escaping only, and floats print their recorded lexeme;
no claim depends on these corners.  `fuel` bounds the recursion as in
`dumpsVal`. -/
def pyRepr : Nat → JsonVal → String
  | 0, _ => ""
  | n + 1, v =>
      match v with
      | .null => "None"
      | .bool true => "True"
      | .bool false => "False"
      | .int i => toString i
      | .float raw => raw
      | .str s => "\x27" ++ String.join (s.data.map (fun c =>
          if c = '\\' then "\\\\" else if c = '\x27' then "\\\x27" else String.singleton c)) ++ "\x27"
      | .arr xs => "[" ++ String.intercalate ", " (xs.map (pyRepr n)) ++ "]"
      | .obj kvs =>
          "\x7b" ++ String.intercalate ", " (kvs.map (fun kv =>
            "\x27" ++ kv.1 ++ "\x27: " ++ pyRepr n kv.2)) ++ "\x7d"

/-- The text pandas writes for one cell value: `None` (a JSON `null`) prints
empty like a missing value, scalars print via `str`, containers via `repr`. -/
def pyCellStr (fuel : Nat) : JsonVal → String
  | .null => ""
  | .bool true => "True"
  | .bool false => "False"
  | .int i => toString i
  | .float raw => raw
  | .str s => s
  | v => pyRepr fuel v

/-- Minimal CSV quoting for `sep='|'`: a field containing the separator, a
quote, or a line break is wrapped in double quotes with quotes doubled. -/
def csvField (s : String) : String :=
  if s.data.any (fun c => c = '|' ∨ c = '"' ∨ c = '\n' ∨ c = '\r') then
    "\"" ++ String.join (s.data.map (fun c => if c = '"' then "\"\"" else String.singleton c)) ++ "\""
  else s

/-- The text written to `graph.csv`:
`pd.DataFrame(json_objects).to_csv(csv_output_file, sep='|', index=False)` —
a header row of the columns and one row per record, pipe-separated, each
row ended by a newline; a record missing a column yields an empty cell
(`NaN`).  `fuel` is passed through to cell rendering. -/
def dfToCsv (fuel : Nat) (records : List JsonVal) : String :=
  let cols := dfColumns records
  String.intercalate "|" (cols.map csvField) ++ "\n" ++
  String.join (records.map (fun r =>
    String.intercalate "|" (cols.map (fun k =>
      match jsonGet k r with
      | none => ""
      | some v => csvField (pyCellStr fuel v))) ++ "\n"))

/-- The text written to `graph.csv` for a given input text. -/
def graphCsvText (text : String) : String :=
  dfToCsv (text.length + 2) (extract_json_from_text text)

/-! ### `main` and the `__main__` block, as event traces -/

/-- One observable action of the script, in program order: creating the
output directory (`mkdir(parents=True, exist_ok=True)`), writing a file,
or printing a console message. -/
inductive Event where
  | mkdirParents (dir : String)
  | writeFile (path : String) (contents : String)
  | printMsg (msg : String)

/-- `main(input_file, output_directory)` given the text read from the input
file: extract the records and the conceptual space, create the output
directory, write `cleaned_data.json`, write `graph.csv` only when at least
one record was extracted (otherwise print the no-valid-objects message),
and write `conceptual_space.json`, with the script's progress messages. -/
def pyMain (inputText outputDirectory : String) : List Event :=
  let json_objects := extract_json_from_text inputText
  let conceptual_space := extract_conceptual_space inputText
  let jsonOutputFile := outputDirectory ++ "/cleaned_data.json"
  let csvOutputFile := outputDirectory ++ "/graph.csv"
  let conceptualSpaceFile := outputDirectory ++ "/conceptual_space.json"
  [Event.mkdirParents outputDirectory,
   Event.writeFile jsonOutputFile (cleanedDataText inputText),
   Event.printMsg ("Cleaned JSON data has been saved to " ++ jsonOutputFile)]
  ++ (if json_objects.isEmpty then
        [Event.printMsg "No valid JSON objects found to save to CSV."]
      else
        [Event.writeFile csvOutputFile (graphCsvText inputText),
         Event.printMsg ("CSV data has been saved to " ++ csvOutputFile)])
  ++ [Event.writeFile conceptualSpaceFile (dumpsConceptualSpace conceptual_space),
      Event.printMsg ("Conceptual space data has been saved to " ++ conceptualSpaceFile)]

/-- The `__main__` block: print the filename prompt, read a line with a
10-second alarm (`promptResult = some line` if a line arrived, `none` on
timeout, in which case the timeout message is printed and the default
`clean_json` is kept), then call `main` — the prompt value is bound to
`output_filename` and never used. -/
def pyProgram (inputText outputDirectory : String) (promptResult : Option String) : List Event :=
  let promptEvents :=
    [Event.printMsg "Please enter the output filename (default is \x27clean_json\x27):"]
    ++ (match promptResult with
        | some _ => []
        | none => [Event.printMsg "\nTimeout reached, using default output filename \x27clean_json\x27."])
  let output_filename := promptResult.getD "clean_json"
  promptEvents ++ pyMain inputText outputDirectory

/-- The files produced by a trace: the `(path, contents)` pairs written. -/
def fileWrites (evs : List Event) : List (String × String) :=
  evs.filterMap (fun e =>
    match e with
    | .writeFile p c => some (p, c)
    | _ => none)

/-! ### Helper lemmas -/

/-- The extraction loop keeps, in match order, exactly the matches whose
parse succeeds, each tagged by `setChunk`. -/
theorem extractLoop_eq_filterMap (ms : List String) :
    extractLoop ms = ms.filterMap (fun m => (json_loads m).map (fun v => setChunk v m)) := by
  induction ms with
  | nil => rfl
  | cons m ms ih =>
      cases h : json_loads m with
      | none => simp [extractLoop, h, ih]
      | some v => simp [extractLoop, h, ih]

/-- Appending one processed element per step is the same as mapping. -/
theorem foldl_append_singleton {α β : Type} (f : α → β) (ms : List α) (acc : List β) :
    ms.foldl (fun a m => a ++ [f m]) acc = acc ++ ms.map f := by
  induction ms generalizing acc with
  | nil => simp
  | cons m ms ih => simp [List.foldl_cons, ih]

/-- The scanner ignores a prefix free of the open delimiter. -/
theorem scanDelims_append_none (oc cc : Char) (l r : List Char) (h : oc ∉ l) :
    scanDelims oc cc none (l ++ r) = scanDelims oc cc none r := by
  induction l with
  | nil => rfl
  | cons c t ih =>
      rw [List.mem_cons] at h
      push_neg at h
      simpa [scanDelims, Ne.symm h.1] using ih h.2

/-- Text free of the open delimiter yields no matches. -/
theorem scanDelims_no_open (oc cc : Char) (l : List Char) (h : oc ∉ l) :
    scanDelims oc cc none l = [] := by
  simpa using scanDelims_append_none oc cc l [] h

/-- With a pending match, the first close delimiter ends the match: the
pending text extended to that delimiter is emitted and scanning resumes
after it. -/
theorem scanDelims_some_close (oc cc : Char) (acc body rest : List Char) (h : cc ∉ body) :
    scanDelims oc cc (some acc) (body ++ cc :: rest) =
      (acc ++ body ++ [cc]) :: scanDelims oc cc none rest := by
  induction body generalizing acc with
  | nil => simp [scanDelims]
  | cons c t ih =>
      rw [List.mem_cons] at h
      push_neg at h
      simpa [scanDelims, Ne.symm h.1, List.append_assoc] using ih (acc ++ [c]) h.2

/-- Every match emitted by the scanner begins with the open delimiter
(starting from the searching state or from a pending match that already
begins with it). -/
theorem scanDelims_mem_head (oc cc : Char) :
    ∀ (cs : List Char) (st : Option (List Char)),
      (st = none ∨ ∃ t, st = some (oc :: t)) →
      ∀ m ∈ scanDelims oc cc st cs, m.head? = some oc := by
  intro cs
  induction cs with
  | nil => intro st _ m hm; simp [scanDelims] at hm
  | cons c rest ih =>
      intro st hst m hm
      rcases hst with h | ⟨t, h⟩
      · subst h
        by_cases hc : c = oc
        · subst hc
          rw [scanDelims, if_pos rfl] at hm
          exact ih (some [c]) (Or.inr ⟨[], rfl⟩) m hm
        · rw [scanDelims, if_neg hc] at hm
          exact ih none (Or.inl rfl) m hm
      · subst h
        by_cases hc : c = cc
        · subst hc
          rw [scanDelims, if_pos rfl] at hm
          rcases List.mem_cons.mp hm with h1 | h1
          · subst h1; rfl
          · exact ih none (Or.inl rfl) m h1
        · rw [scanDelims, if_neg hc] at hm
          exact ih (some ((oc :: t) ++ [c])) (Or.inr ⟨t ++ [c], rfl⟩) m hm

/-- Every regex match for the brace pattern begins with an opening brace. -/
theorem regexFindall_head (oc cc : Char) (s : String) (m : String)
    (hm : m ∈ regexFindall oc cc s) : m.data.head? = some oc := by
  rcases List.mem_map.mp hm with ⟨cs, hcs, rfl⟩
  exact scanDelims_mem_head oc cc s.data none (Or.inl rfl) cs hcs

/-- A successful parse of input beginning with an opening brace yields an
object value. -/
theorem parseValue_brace (fuel : Nat) (t : List Char) (v : JsonVal) (r : List Char)
    (h : parseValue fuel ('{' :: t) = some (v, r)) : ∃ kvs, v = JsonVal.obj kvs := by
  cases fuel with
  | zero => simp [parseValue] at h
  | succ n =>
      rw [parseValue] at h
      rw [if_pos rfl] at h
      split at h
      · simp at h
        exact ⟨[], h.1.symm⟩
      · split at h
        · rename_i kvs rest2 hp
          simp at h
          exact ⟨kvs, h.1.symm⟩
        · simp at h

/-- `json.loads` on a string that begins with an opening brace returns an
object when it succeeds. -/
theorem json_loads_brace_obj (s : String) (v : JsonVal)
    (h0 : s.data.head? = some '{') (h : json_loads s = some v) :
    ∃ kvs, v = JsonVal.obj kvs := by
  cases hd : s.data with
  | nil => rw [hd] at h0; simp at h0
  | cons c t =>
      rw [hd] at h0
      simp at h0
      subst h0
      rw [json_loads, hd] at h
      have hws : skipWs ('{' :: t) = '{' :: t := rfl
      rw [hws] at h
      cases hpv : parseValue (2 * ('{' :: t).length + 2) ('{' :: t) with
      | none => rw [hpv] at h; simp at h
      | some p =>
          rw [hpv] at h
          obtain ⟨kvs, hkvs⟩ := parseValue_brace _ t p.1 p.2 (by rw [hpv])
          simp at h
          exact ⟨kvs, by rw [← h.2, hkvs]⟩

/-- Assigning a key with `dictSet` makes lookup of that key return the
assigned value, whether or not the key was already present. -/
theorem dictLookup_dictSet_self (kvs : List (String × JsonVal)) (k : String) (x : JsonVal) :
    dictLookup k (dictSet kvs k x) = some x := by
  induction kvs with
  | nil => simp [dictSet, dictLookup]
  | cons kv t ih =>
      by_cases hk : kv.1 = k
      · simp [dictSet, hk, dictLookup]
      · simp [dictSet, hk, dictLookup, ih]

/-- A key is among the DataFrame columns built from an accumulator exactly
when it is in the accumulator or in some record. -/
theorem mem_dfColumns_aux (rs : List JsonVal) :
    ∀ (cols : List String) (k : String),
      (k ∈ rs.foldl (fun cs r => cs ++ (recordKeys r).filter (fun x => decide (x ∉ cs))) cols ↔
        k ∈ cols ∨ ∃ r ∈ rs, k ∈ recordKeys r) := by
  induction rs with
  | nil => simp
  | cons r rs ih =>
      intro cols k
      rw [List.foldl_cons, ih]
      simp only [List.mem_append, List.mem_filter, decide_eq_true_eq, List.mem_cons]
      constructor
      · rintro (((h | ⟨h, _⟩) | ⟨rr, hrr, hk⟩))
        · exact Or.inl h
        · exact Or.inr ⟨r, Or.inl rfl, h⟩
        · exact Or.inr ⟨rr, Or.inr hrr, hk⟩
      · rintro (h | ⟨rr, (rfl | hrr), hk⟩)
        · exact Or.inl (Or.inl h)
        · by_cases hc : k ∈ cols
          · exact Or.inl (Or.inl hc)
          · exact Or.inl (Or.inr ⟨hk, hc⟩)
        · exact Or.inr ⟨rr, hrr, hk⟩

/-- The columns of the DataFrame are exactly the union of the records'
keys. -/
theorem mem_dfColumns (records : List JsonVal) (k : String) :
    k ∈ dfColumns records ↔ ∃ r ∈ records, k ∈ recordKeys r := by
  have h := mem_dfColumns_aux records [] k
  simpa [dfColumns] using h

/-! ### Claims -/

/-- Claim C1, counterexample.  The claim asserts that every well-formed flat
(non-nested) JSON object embedded in the input is extracted exactly once.
The text consisting solely of the flat object whose single string value is
a closing brace is a well-formed flat JSON object (its parse succeeds), yet
`extract_json_from_text` extracts nothing from it: the non-greedy match
stops at the closing brace inside the string, the truncated match fails to
parse, and scanning resumes after it. -/
theorem c1_counterexample_flat_object_missed :
    json_loads "\x7b\"a\": \"\x7d\"\x7d" = some (JsonVal.obj [("a", JsonVal.str "\x7d")])
    ∧ extract_json_from_text "\x7b\"a\": \"\x7d\"\x7d" = [] :=
  ⟨rfl, rfl⟩

/-- Claim C1, amended.  If the input text is `pre ++ obj ++ post` where
`obj` is a brace-delimited fragment whose body contains no closing brace
and which parses as JSON, and where `pre` and `post` contain no opening
brace, then the object is extracted exactly once — the result is exactly
the one parsed record — and its identifier is the MD5 hex digest of the raw
matched substring `obj`, hence the same fragment text always yields the
same identifier wherever it occurs. -/
theorem c1_flat_object_extracted_once (pre body post : String) (v : JsonVal)
    (hpre : '{' ∉ pre.data) (hbc : '}' ∉ body.data)
    (hpost : '{' ∉ post.data)
    (hparse : json_loads ("\x7b" ++ body ++ "\x7d") = some v) :
    extract_json_from_text (pre ++ ("\x7b" ++ body ++ "\x7d") ++ post)
      = [setChunk v ("\x7b" ++ body ++ "\x7d")] := by
  have h1 : ("\x7b" : String).data = ['{'] := rfl
  have h2 : ("\x7d" : String).data = ['}'] := rfl
  have hobj : ("\x7b" ++ body ++ "\x7d").data = '{' :: (body.data ++ ['}']) := by
    simp [String.data_append, h1, h2]
  have hdata : (pre ++ ("\x7b" ++ body ++ "\x7d") ++ post).data
      = pre.data ++ ('{' :: (body.data ++ '}' :: post.data)) := by
    simp [String.data_append, h1, h2]
  have hmk : String.mk ('{' :: (body.data ++ ['}'])) = "\x7b" ++ body ++ "\x7d" := by
    rw [← hobj]
  rw [extract_json_from_text, regexFindall, hdata,
    scanDelims_append_none '{' '}' pre.data _ hpre]
  rw [scanDelims, if_pos rfl]
  rw [scanDelims_some_close '{' '}' ['{'] body.data post.data hbc,
    scanDelims_no_open '{' '}' post.data hpost]
  simp only [List.map_cons, List.map_nil]
  rw [show ['{'] ++ body.data ++ ['}'] = '{' :: (body.data ++ ['}']) by simp]
  rw [hmk, extractLoop, hparse, extractLoop]

/-- Claim C1, witness: a flat object with brace-free surroundings is
extracted exactly once with its content-hash identifier. -/
theorem c1_flat_object_extracted_once_witness :
    extract_json_from_text ("json: " ++ ("\x7b" ++ "\"a\": 1" ++ "\x7d") ++ ".")
      = [setChunk (JsonVal.obj [("a", JsonVal.int 1)]) ("\x7b" ++ "\"a\": 1" ++ "\x7d")] :=
  c1_flat_object_extracted_once "json: " "\"a\": 1" "." (JsonVal.obj [("a", JsonVal.int 1)])
    (by decide) (by decide) (by decide) rfl

/-- Claim C2: for every input text, the extraction parses each regex match
as JSON, silently discards a match whose parse fails (it contributes
nothing and, the function being total, raises no error), and returns
exactly the successfully parsed objects — each tagged with its content
hash — in the order their matches occur. -/
theorem c2_parse_failures_silently_discarded (text : String) :
    extract_json_from_text text
      = (regexFindall '{' '}' text).filterMap
          (fun m => (json_loads m).map (fun v => setChunk v m)) :=
  extractLoop_eq_filterMap (regexFindall '{' '}' text)

/-- Claim C3: on the input consisting of a JSON object with nested braces,
the non-greedy pattern truncates the match at the first closing brace
(the match is not brace-depth-aware), the truncated fragment fails to
parse, and the nested object is absent from the result. -/
theorem c3_nested_object_not_extracted :
    regexFindall '{' '}' "\x7b\"a\": \x7b\"b\": 1\x7d\x7d" = ["\x7b\"a\": \x7b\"b\": 1\x7d"]
    ∧ extract_json_from_text "\x7b\"a\": \x7b\"b\": 1\x7d\x7d" = [] :=
  ⟨rfl, rfl⟩

/-- Claim C4: for every input text, the conceptual-space extraction finds
each non-greedy bracketed span, strips the bracket characters from its
ends, splits on the two-character separator comma-space, and appends one
token list per match, in match order, under the single key
`"all concepts"`; in particular an input containing `[a, b, c]` yields the
token list `["a", "b", "c"]`. -/
theorem c4_conceptual_space_pipeline :
    (∀ text : String, extract_conceptual_space text
        = [("all concepts", (regexFindall '[' ']' text).map cleanConcepts)])
    ∧ extract_conceptual_space "x [a, b, c] y" = [("all concepts", [["a", "b", "c"]])] := by
  constructor
  · intro text
    simp [extract_conceptual_space, foldl_append_singleton]
  · rfl

/-- Claim C10: the split is on the exact two-character separator
comma-space only — `[a,b,c]` yields the single token `"a,b,c"`, and the
empty span `[]` yields the one-element list holding the empty string. -/
theorem c10_split_exact_separator :
    extract_conceptual_space "[a,b,c]" = [("all concepts", [["a,b,c"]])]
    ∧ extract_conceptual_space "[]" = [("all concepts", [[""]])] :=
  ⟨rfl, rfl⟩

/-- Claim C9: every record returned by the extraction carries the key
`"chunk_id"` whose value is the MD5 hex digest of the raw matched text; the
record is the parsed object with that key assigned, so an original
`"chunk_id"` field of the embedded object is overwritten by the digest. -/
theorem c9_chunk_id_is_content_hash (text : String) (v : JsonVal)
    (hv : v ∈ extract_json_from_text text) :
    ∃ m ∈ regexFindall '{' '}' text,
      jsonGet "chunk_id" v = some (JsonVal.str (md5Hex m))
      ∧ ∃ kvs, json_loads m = some (JsonVal.obj kvs)
          ∧ v = JsonVal.obj (dictSet kvs "chunk_id" (JsonVal.str (md5Hex m))) := by
  rw [extract_json_from_text, extractLoop_eq_filterMap] at hv
  rcases List.mem_filterMap.mp hv with ⟨m, hm, hmv⟩
  cases hl : json_loads m with
  | none => rw [hl] at hmv; simp at hmv
  | some w =>
      rw [hl] at hmv
      simp at hmv
      obtain ⟨kvs, rfl⟩ := json_loads_brace_obj m w (regexFindall_head '{' '}' text m hm) hl
      refine ⟨m, hm, ?_, kvs, hl, ?_⟩
      · rw [← hmv]
        simp [setChunk, jsonGet, dictLookup_dictSet_self]
      · rw [← hmv]
        rfl

/-- Claim C9, witness: a record whose embedded object already held a
`"chunk_id"` field carries the digest of its raw match, in the field's
original position, with the original value overwritten. -/
theorem c9_chunk_id_is_content_hash_witness :
    ∃ m ∈ regexFindall '{' '}' "\x7b\"chunk_id\": \"old\", \"x\": 1\x7d",
      jsonGet "chunk_id"
          (JsonVal.obj
            [("chunk_id", JsonVal.str (md5Hex "\x7b\"chunk_id\": \"old\", \"x\": 1\x7d")),
             ("x", JsonVal.int 1)])
        = some (JsonVal.str (md5Hex m))
      ∧ ∃ kvs, json_loads m = some (JsonVal.obj kvs)
          ∧ JsonVal.obj
                [("chunk_id", JsonVal.str (md5Hex "\x7b\"chunk_id\": \"old\", \"x\": 1\x7d")),
                 ("x", JsonVal.int 1)]
              = JsonVal.obj (dictSet kvs "chunk_id" (JsonVal.str (md5Hex m))) :=
  c9_chunk_id_is_content_hash "\x7b\"chunk_id\": \"old\", \"x\": 1\x7d"
    (JsonVal.obj
      [("chunk_id", JsonVal.str (md5Hex "\x7b\"chunk_id\": \"old\", \"x\": 1\x7d")),
       ("x", JsonVal.int 1)])
    (List.mem_singleton_self _)

/-- Claim C5: on empty input the program writes an empty JSON array to
`cleaned_data.json` and an empty concept list to `conceptual_space.json`,
prints the no-valid-JSON-objects message, and writes no `graph.csv` at
all; and the same omission-and-message behaviour holds for any input from
which no valid JSON object is extracted. -/
theorem c5_empty_input_empty_outputs (dir : String) :
    pyMain "" dir =
      [Event.mkdirParents dir,
       Event.writeFile (dir ++ "/cleaned_data.json") "[]",
       Event.printMsg ("Cleaned JSON data has been saved to " ++ (dir ++ "/cleaned_data.json")),
       Event.printMsg "No valid JSON objects found to save to CSV.",
       Event.writeFile (dir ++ "/conceptual_space.json") "\x7b\n    \"all concepts\": []\n\x7d",
       Event.printMsg ("Conceptual space data has been saved to " ++ (dir ++ "/conceptual_space.json"))]
    ∧ ∀ text : String, (extract_json_from_text text).isEmpty = true →
        cleanedDataText text = "[]"
        ∧ fileWrites (pyMain text dir)
            = [(dir ++ "/cleaned_data.json", "[]"),
               (dir ++ "/conceptual_space.json", dumpsConceptualSpace (extract_conceptual_space text))]
        ∧ Event.printMsg "No valid JSON objects found to save to CSV." ∈ pyMain text dir := by
  constructor
  · rfl
  · intro text h
    have h' : extract_json_from_text text = [] := List.isEmpty_iff.mp h
    have hc : cleanedDataText text = "[]" := by
      rw [cleanedDataText, h']
      rfl
    refine ⟨hc, ?_, ?_⟩
    · simp [pyMain, h', fileWrites, hc]
    · simp [pyMain, h']

/-- Claim C5, witness: an input with no valid JSON object yields the empty
array, only the two JSON files, and the console message. -/
theorem c5_empty_input_empty_outputs_witness :
    (extract_json_from_text "no objects here").isEmpty = true
    ∧ (cleanedDataText "no objects here" = "[]"
        ∧ fileWrites (pyMain "no objects here" "out")
            = [("out" ++ "/cleaned_data.json", "[]"),
               ("out" ++ "/conceptual_space.json",
                 dumpsConceptualSpace (extract_conceptual_space "no objects here"))]
        ∧ Event.printMsg "No valid JSON objects found to save to CSV." ∈ pyMain "no objects here" "out") :=
  ⟨rfl, (c5_empty_input_empty_outputs "out").2 "no objects here" rfl⟩

/-- Claim C6: extraction, hashing and serialization are pure functions of
the input text, so two runs of `main` on identical input produce identical
event traces — in particular identical contents for all output files. -/
theorem c6_identical_input_identical_outputs (t1 t2 dir : String) (h : t1 = t2) :
    pyMain t1 dir = pyMain t2 dir := by rw [h]

/-- Claim C6, witness: two runs on the same concrete input coincide. -/
theorem c6_identical_input_identical_outputs_witness :
    ("run \x7b\"a\": 1\x7d" : String) = "run \x7b\"a\": 1\x7d"
    ∧ pyMain "run \x7b\"a\": 1\x7d" "out" = pyMain "run \x7b\"a\": 1\x7d" "out" :=
  ⟨rfl, c6_identical_input_identical_outputs "run \x7b\"a\": 1\x7d" "run \x7b\"a\": 1\x7d" "out" rfl⟩

/-- Claim C7: whenever at least one record is extracted, `main` creates the
output directory (with parents) first, writes the records as a JSON array
to `cleaned_data.json`, writes the pipe-delimited table `graph.csv` — a
header of the columns followed by one row per record — and writes the
conceptual space to `conceptual_space.json`; the columns are exactly the
union of the keys appearing across all records. -/
theorem c7_nonempty_records_outputs (text dir : String)
    (h : (extract_json_from_text text).isEmpty = false) :
    pyMain text dir =
      [Event.mkdirParents dir,
       Event.writeFile (dir ++ "/cleaned_data.json") (cleanedDataText text),
       Event.printMsg ("Cleaned JSON data has been saved to " ++ (dir ++ "/cleaned_data.json")),
       Event.writeFile (dir ++ "/graph.csv") (graphCsvText text),
       Event.printMsg ("CSV data has been saved to " ++ (dir ++ "/graph.csv")),
       Event.writeFile (dir ++ "/conceptual_space.json")
         (dumpsConceptualSpace (extract_conceptual_space text)),
       Event.printMsg ("Conceptual space data has been saved to " ++ (dir ++ "/conceptual_space.json"))]
    ∧ graphCsvText text
        = String.intercalate "|" ((dfColumns (extract_json_from_text text)).map csvField) ++ "\n" ++
          String.join ((extract_json_from_text text).map (fun r =>
            String.intercalate "|" ((dfColumns (extract_json_from_text text)).map (fun k =>
              match jsonGet k r with
              | none => ""
              | some v => csvField (pyCellStr (text.length + 2) v))) ++ "\n"))
    ∧ ∀ k, k ∈ dfColumns (extract_json_from_text text)
        ↔ ∃ r ∈ extract_json_from_text text, k ∈ recordKeys r := by
  refine ⟨?_, rfl, fun k => mem_dfColumns (extract_json_from_text text) k⟩
  simp [pyMain, h]

/-- Claim C7, witness: a run that extracts one record performs the
directory creation and all three file writes, with the column/union
characterization of the table. -/
theorem c7_nonempty_records_outputs_witness :
    (extract_json_from_text "x \x7b\"a\": 1\x7d y").isEmpty = false
    ∧ (pyMain "x \x7b\"a\": 1\x7d y" "out" =
        [Event.mkdirParents "out",
         Event.writeFile ("out" ++ "/cleaned_data.json") (cleanedDataText "x \x7b\"a\": 1\x7d y"),
         Event.printMsg ("Cleaned JSON data has been saved to " ++ ("out" ++ "/cleaned_data.json")),
         Event.writeFile ("out" ++ "/graph.csv") (graphCsvText "x \x7b\"a\": 1\x7d y"),
         Event.printMsg ("CSV data has been saved to " ++ ("out" ++ "/graph.csv")),
         Event.writeFile ("out" ++ "/conceptual_space.json")
           (dumpsConceptualSpace (extract_conceptual_space "x \x7b\"a\": 1\x7d y")),
         Event.printMsg ("Conceptual space data has been saved to " ++ ("out" ++ "/conceptual_space.json"))]
      ∧ graphCsvText "x \x7b\"a\": 1\x7d y"
          = String.intercalate "|" ((dfColumns (extract_json_from_text "x \x7b\"a\": 1\x7d y")).map csvField) ++ "\n" ++
            String.join ((extract_json_from_text "x \x7b\"a\": 1\x7d y").map (fun r =>
              String.intercalate "|" ((dfColumns (extract_json_from_text "x \x7b\"a\": 1\x7d y")).map (fun k =>
                match jsonGet k r with
                | none => ""
                | some v => csvField (pyCellStr ("x \x7b\"a\": 1\x7d y".length + 2) v))) ++ "\n"))
      ∧ ∀ k, k ∈ dfColumns (extract_json_from_text "x \x7b\"a\": 1\x7d y")
          ↔ ∃ r ∈ extract_json_from_text "x \x7b\"a\": 1\x7d y", k ∈ recordKeys r) :=
  ⟨rfl, c7_nonempty_records_outputs "x \x7b\"a\": 1\x7d y" "out" rfl⟩

/-- Claim C8: the value read at the output-filename prompt (or the default
substituted on timeout) is bound but never passed to `main`, so the files
produced — names and contents alike — are identical whatever the prompt
outcome is. -/
theorem c8_prompt_value_has_no_effect (text dir : String) (p1 p2 : Option String) :
    fileWrites (pyProgram text dir p1) = fileWrites (pyProgram text dir p2) := by
  cases p1 <;> cases p2 <;>
    simp [pyProgram, fileWrites, List.filterMap_append]
